import Mathlib

/-!
Verification of the BMPstat pixel-addressing and bit-mutation engine
(src/bmpstat.py) against its natural-language specification.

The buffer is a Python bytearray, modelled as a `List Nat` whose elements are
intended to lie in [0, 256).  All header readers, geometry calculators, bounds
checks and mutation operations of the class `BMPstat` are embedded below;
fallible Python operations (exceptions) are modelled with `Except PyErr`.
-/

namespace BMP

/-- Little-endian integer value of a byte list, as computed by Python
`int.from_bytes(bs, byteorder='little')` with the default unsigned reading;
an empty list yields 0. -/
def leNum : List Nat → Nat
  | [] => 0
  | b :: bs => b + 256 * leNum bs

/-- Model of the Python slice `buf[a:b]` for `0 ≤ a ≤ b`: it truncates
silently at the end of the list and never fails (`List.take` and `List.drop`
clamp exactly like Python slice bounds). -/
def pySlice (buf : List Nat) (a b : Nat) : List Nat :=
  (buf.take b).drop a

/-- Embeds `BMPstat.get_offset`: `int.from_bytes(raw_image[10:14], 'little')`. -/
def get_offset (buf : List Nat) : Nat :=
  leNum (pySlice buf 10 14)

/-- Embeds `BMPstat.get_size`: width from `raw_image[18:22]`, height from
`raw_image[22:26]`, both via `int.from_bytes(..., 'little')`, which reads
UNSIGNED because the source does not pass `signed=True`. -/
def get_size (buf : List Nat) : Nat × Nat :=
  (leNum (pySlice buf 18 22), leNum (pySlice buf 22 26))

/-- Embeds `BMPstat.get_bpp`: `int.from_bytes(raw_image[28:30], 'little')`. -/
def get_bpp (buf : List Nat) : Nat :=
  leNum (pySlice buf 28 30)

/-- Embeds `BMPstat.get_Bpp`: `max(1, bpp // 8)`. -/
def get_Bpp (buf : List Nat) : Nat :=
  max 1 (get_bpp buf / 8)

/-- Embeds `BMPstat.get_rowsize_bpp`: `bpp * width` (row size in bits). -/
def get_rowsize_bpp (buf : List Nat) : Nat :=
  get_bpp buf * (get_size buf).1

/-- Embeds `BMPstat.get_rowsize`: `math.ceil(row_size_bpp / 8)`, the exact
ceiling division on nonnegative integers. -/
def get_rowsize (buf : List Nat) : Nat :=
  (get_rowsize_bpp buf + 7) / 8

/-- Embeds `BMPstat.get_padding`:
`row_padding = (4 - (width * Bpp) % 4); return row_padding % 4`. -/
def get_padding (buf : List Nat) : Nat :=
  (4 - (get_size buf).1 * get_Bpp buf % 4) % 4

/-- Embeds `BMPstat.get_eff_rowsize`: `get_rowsize() + get_padding()`. -/
def get_eff_rowsize (buf : List Nat) : Nat :=
  get_rowsize buf + get_padding buf

/-- Embeds `BMPstat.get_payload_size`: `height * eff_rowsize`. -/
def get_payload_size (buf : List Nat) : Nat :=
  (get_size buf).2 * get_eff_rowsize buf

/-- Embeds `BMPstat.get_payload`: the slice
`raw_image[start : start + payload_size]`. -/
def get_payload (buf : List Nat) : List Nat :=
  pySlice buf (get_offset buf) (get_offset buf + get_payload_size buf)

/-- Error values raised by the source. `vnie x start stop` is the exception
`ValueNotInExcludeEnd(message, x, start, end)`, carrying the offending value
and the half-open bound [start, stop) (the message string is omitted);
`valueError` models Python `ValueError` (set_payload size mismatch, byte value
out of range on a bytearray store, negative shift count); `indexError` models
Python `IndexError` on bytearray indexing. -/
inductive PyErr where
  | vnie (x start stop : Int)
  | valueError
  | indexError
deriving DecidableEq

/-- Embeds `BMPstat.check_width`: raises when `w < 0 or w >= width`. -/
def check_width (buf : List Nat) (w : Int) : Except PyErr Unit :=
  if w < 0 ∨ ((get_size buf).1 : Int) ≤ w then
    .error (.vnie w 0 ((get_size buf).1 : Int))
  else .ok ()

/-- Embeds `BMPstat.check_height`: raises when `h < 0 or h >= height`. -/
def check_height (buf : List Nat) (h : Int) : Except PyErr Unit :=
  if h < 0 ∨ ((get_size buf).2 : Int) ≤ h then
    .error (.vnie h 0 ((get_size buf).2 : Int))
  else .ok ()

/-- Embeds `BMPstat.check_layer`: raises only when `layer >= Bpp` (the source
has no lower-bound test, so negative layers pass). -/
def check_layer (buf : List Nat) (layer : Int) : Except PyErr Unit :=
  if (get_Bpp buf : Int) ≤ layer then
    .error (.vnie layer 0 (get_Bpp buf : Int))
  else .ok ()

/-- Embeds `BMPstat.check_sublayer`: raises only when `sublayer >= bpp` (the
source has no lower-bound test, so negative sublayers pass). -/
def check_sublayer (buf : List Nat) (sublayer : Int) : Except PyErr Unit :=
  if (get_bpp buf : Int) ≤ sublayer then
    .error (.vnie sublayer 0 (get_bpp buf : Int))
  else .ok ()

/-- Embeds `BMPstat.get_pixel_offset`: validates `i` and `j` (raising
`ValueNotInExcludeEnd` with the same value/bound payload as the width and
height checks), then returns `offset + j*eff_rowsize + i*Bpp`. -/
def get_pixel_offset (buf : List Nat) (i j : Int) : Except PyErr Int :=
  if i < 0 ∨ ((get_size buf).1 : Int) ≤ i then
    .error (.vnie i 0 ((get_size buf).1 : Int))
  else if j < 0 ∨ ((get_size buf).2 : Int) ≤ j then
    .error (.vnie j 0 ((get_size buf).2 : Int))
  else
    .ok ((get_offset buf : Int) + j * (get_eff_rowsize buf : Int) +
      i * (get_Bpp buf : Int))

/-- Python bytearray index resolution: a nonnegative index < len is used
directly, an index in [-len, 0) wraps to len + i, anything else is an
IndexError. -/
def pyIndex (len : Nat) (i : Int) : Option Nat :=
  if 0 ≤ i ∧ i < (len : Int) then some i.toNat
  else if i < 0 ∧ 0 ≤ i + (len : Int) then some (i + (len : Int)).toNat
  else none

/-- Reading `raw_image[i]` on a bytearray. -/
def pyGetByte (buf : List Nat) (i : Int) : Except PyErr Nat :=
  match pyIndex buf.length i with
  | none => .error .indexError
  | some t =>
    match buf[t]? with
    | none => .error .indexError
    | some b => .ok b

/-- Writing `raw_image[i] = v` on a bytearray: IndexError when the index does
not resolve, ValueError when the value is not a byte (v ≥ 256). -/
def pySetByte (buf : List Nat) (i : Int) (v : Nat) : Except PyErr (List Nat) :=
  match pyIndex buf.length i with
  | none => .error .indexError
  | some t => if v < 256 then .ok (buf.set t v) else .error .valueError

/-- Embeds `BMPstat.apply_bitmask`: `check_width(i)`, `check_height(j)`,
`check_layer(layer)`, then `offset = get_pixel_offset(i, j) + layer` and the
caller-supplied closure mutates `raw_image[offset]`.  The closure is modelled
as the computation of a byte transformation (which can itself fail, e.g. on a
negative shift count) followed by a read-modify-write of that single byte,
which is exactly what both closures in the source do. -/
def apply_bitmask (buf : List Nat) (i j layer : Int)
    (tf : Except PyErr (Nat → Nat)) : Except PyErr (List Nat) :=
  match check_width buf i with
  | .error e => .error e
  | .ok _ =>
    match check_height buf j with
    | .error e => .error e
    | .ok _ =>
      match check_layer buf layer with
      | .error e => .error e
      | .ok _ =>
        match get_pixel_offset buf i j with
        | .error e => .error e
        | .ok po =>
          match tf with
          | .error e => .error e
          | .ok f =>
            match pyGetByte buf (po + layer) with
            | .error e => .error e
            | .ok b => pySetByte buf (po + layer) (f b)

/-- Embeds `BMPstat.set_one`: `check_sublayer(sublayer)`, then apply_bitmask
with the closure `raw_image[offset] |= (1 << sublayer)`; a negative sublayer
makes the shift raise ValueError before any byte is touched. -/
def set_one (buf : List Nat) (i j layer sublayer : Int) :
    Except PyErr (List Nat) :=
  match check_sublayer buf sublayer with
  | .error e => .error e
  | .ok _ =>
    apply_bitmask buf i j layer
      (if sublayer < 0 then .error .valueError
       else .ok (fun b => b ||| 1 <<< sublayer.toNat))

/-- Embeds `BMPstat.set_zero`: `check_sublayer(sublayer)`, then apply_bitmask
with the closure `raw_image[offset] &= (0xFF ^ (1 << sublayer))`. -/
def set_zero (buf : List Nat) (i j layer sublayer : Int) :
    Except PyErr (List Nat) :=
  match check_sublayer buf sublayer with
  | .error e => .error e
  | .ok _ =>
    apply_bitmask buf i j layer
      (if sublayer < 0 then .error .valueError
       else .ok (fun b => b &&& (255 ^^^ 1 <<< sublayer.toNat)))

/-- Embeds `BMPstat.set_payload`: raises ValueError when
`len(payload) != payload_size`, otherwise performs the slice assignment
`raw_image[start : start + payload_size] = payload`, a splice that keeps the
prefix before `start` and the suffix from `start + payload_size` on
(`List.take`/`List.drop` clamp exactly like Python slice bounds, so on a
buffer shorter than `start + payload_size` the buffer grows). -/
def set_payload (buf payload : List Nat) : Except PyErr (List Nat) :=
  if payload.length ≠ get_payload_size buf then .error .valueError
  else
    .ok (buf.take (get_offset buf) ++ payload ++
      buf.drop (get_offset buf + get_payload_size buf))

/-- Byte index targeted by a mutation with nonnegative in-bounds arguments:
payload offset + j * effective row size + i * bytes per pixel + layer. -/
def target_index (buf : List Nat) (i j layer : Int) : Nat :=
  get_offset buf + j.toNat * get_eff_rowsize buf +
    i.toNat * get_Bpp buf + layer.toNat

/-- Modelled from the spec: a signed 32-bit little-endian (two's-complement)
read of four bytes, which is what the spec (and the source docstring of
`get_size`) claim the dimension fields use; the source instead calls
`int.from_bytes` without `signed=True`. -/
def leSigned32 (bs : List Nat) : Int :=
  if leNum bs < 2 ^ 31 then (leNum bs : Int) else (leNum bs : Int) - 2 ^ 32

/-! ### Concrete buffers used for witnesses and counterexamples

Header layout (byte offsets): 10..13 payload offset, 18..21 width,
22..25 height, 28..29 bits per pixel; all other header bytes are zero. -/

/-- Buffer with payload offset 30, width 4, height 2, bpp 0 (30 bytes, no
payload bytes needed): its effective row size is 0. -/
def bufBpp0 : List Nat :=
  [0, 0, 0, 0, 0, 0, 0, 0, 0, 0, 30, 0, 0, 0, 0, 0, 0, 0,
   4, 0, 0, 0, 2, 0, 0, 0, 0, 0, 0, 0]

/-- Buffer with payload offset 30, width 1, height 1, bpp 24 and a 4-byte
all-zero payload (34 bytes): Bpp 3, rowsize 3, padding 1, eff_rowsize 4. -/
def buf24 : List Nat :=
  [0, 0, 0, 0, 0, 0, 0, 0, 0, 0, 30, 0, 0, 0, 0, 0, 0, 0,
   1, 0, 0, 0, 1, 0, 0, 0, 0, 0, 24, 0, 0, 0, 0, 0]

/-- Buffer with payload offset 30, width 1, height 2, bpp 24 and an 8-byte
all-zero payload (38 bytes): Bpp 3, rowsize 3, padding 1, eff_rowsize 4. -/
def buf24h2 : List Nat :=
  [0, 0, 0, 0, 0, 0, 0, 0, 0, 0, 30, 0, 0, 0, 0, 0, 0, 0,
   1, 0, 0, 0, 2, 0, 0, 0, 0, 0, 24, 0, 0, 0, 0, 0, 0, 0, 0, 0]

/-- Buffer with payload offset 30, width 1, height 1, bpp 8 and a 4-byte
all-zero payload (34 bytes): Bpp 1, rowsize 1, padding 3, eff_rowsize 4. -/
def buf8 : List Nat :=
  [0, 0, 0, 0, 0, 0, 0, 0, 0, 0, 30, 0, 0, 0, 0, 0, 0, 0,
   1, 0, 0, 0, 1, 0, 0, 0, 0, 0, 8, 0, 0, 0, 0, 0]

/-- Same as `buf8` but the payload byte at index 30 is 1, so bit 0 of the
pixel (0,0) byte is already set. -/
def buf8one : List Nat :=
  [0, 0, 0, 0, 0, 0, 0, 0, 0, 0, 30, 0, 0, 0, 0, 0, 0, 0,
   1, 0, 0, 0, 1, 0, 0, 0, 0, 0, 8, 0, 1, 0, 0, 0]

/-- Adversarial buffer whose payload overlaps its own header: payload offset
10, width 1, height 1, bpp 8 (30 bytes), so the pixel (0,0) byte is byte 10,
the low byte of the payload-offset field itself. -/
def bufAlias : List Nat :=
  [0, 0, 0, 0, 0, 0, 0, 0, 0, 0, 10, 0, 0, 0, 0, 0, 0, 0,
   1, 0, 0, 0, 1, 0, 0, 0, 0, 0, 8, 0]

/-- Buffer whose height field bytes are FF FF FF FF (signed value -1,
unsigned value 4294967295); width 1, bpp 24, 30 bytes. -/
def bufNeg : List Nat :=
  [0, 0, 0, 0, 0, 0, 0, 0, 0, 0, 30, 0, 0, 0, 0, 0, 0, 0,
   1, 0, 0, 0, 255, 255, 255, 255, 0, 0, 24, 0]

/-- Undersized buffer of 20 bytes: the width field range [18,22) holds only
the two bytes 1, 2 and the height, bpp fields are entirely absent. -/
def bufShort : List Nat :=
  [0, 0, 0, 0, 0, 0, 0, 0, 0, 0, 0, 0, 0, 0, 0, 0, 0, 0, 1, 2]

/-- Buffer with payload offset 28, width 4, height 1, bpp 8 (30 bytes):
payload_size is 4 but only bytes 28 and 29 of the claimed payload range
[28, 32) actually exist in the buffer. -/
def bufTight : List Nat :=
  [0, 0, 0, 0, 0, 0, 0, 0, 0, 0, 28, 0, 0, 0, 0, 0, 0, 0,
   4, 0, 0, 0, 1, 0, 0, 0, 0, 0, 8, 0]

/-! ### Reduction lemmas for the bounds checks and the primitive byte ops -/

lemma check_width_ok (buf : List Nat) (w : Int) (h0 : 0 ≤ w)
    (hW : w < ((get_size buf).1 : Int)) : check_width buf w = .ok () := by
  unfold check_width
  rw [if_neg (by omega)]

lemma check_width_err (buf : List Nat) (w : Int)
    (h : w < 0 ∨ ((get_size buf).1 : Int) ≤ w) :
    check_width buf w = .error (.vnie w 0 ((get_size buf).1 : Int)) := by
  unfold check_width
  rw [if_pos h]

lemma check_height_ok (buf : List Nat) (h : Int) (h0 : 0 ≤ h)
    (hH : h < ((get_size buf).2 : Int)) : check_height buf h = .ok () := by
  unfold check_height
  rw [if_neg (by omega)]

lemma check_height_err (buf : List Nat) (h : Int)
    (hh : h < 0 ∨ ((get_size buf).2 : Int) ≤ h) :
    check_height buf h = .error (.vnie h 0 ((get_size buf).2 : Int)) := by
  unfold check_height
  rw [if_pos hh]

lemma check_layer_ok (buf : List Nat) (layer : Int)
    (hB : layer < (get_Bpp buf : Int)) : check_layer buf layer = .ok () := by
  unfold check_layer
  rw [if_neg (by omega)]

lemma check_layer_err (buf : List Nat) (layer : Int)
    (hB : (get_Bpp buf : Int) ≤ layer) :
    check_layer buf layer = .error (.vnie layer 0 (get_Bpp buf : Int)) := by
  unfold check_layer
  rw [if_pos hB]

lemma check_sublayer_ok (buf : List Nat) (s : Int)
    (hP : s < (get_bpp buf : Int)) : check_sublayer buf s = .ok () := by
  unfold check_sublayer
  rw [if_neg (by omega)]

lemma check_sublayer_err (buf : List Nat) (s : Int)
    (hP : (get_bpp buf : Int) ≤ s) :
    check_sublayer buf s = .error (.vnie s 0 (get_bpp buf : Int)) := by
  unfold check_sublayer
  rw [if_pos hP]

lemma get_pixel_offset_run (buf : List Nat) (i j : Int)
    (hi0 : 0 ≤ i) (hiW : i < ((get_size buf).1 : Int))
    (hj0 : 0 ≤ j) (hjH : j < ((get_size buf).2 : Int)) :
    get_pixel_offset buf i j =
      .ok ((get_offset buf : Int) + j * (get_eff_rowsize buf : Int) +
        i * (get_Bpp buf : Int)) := by
  unfold get_pixel_offset
  rw [if_neg (by omega), if_neg (by omega)]

lemma pyGetByte_run (buf : List Nat) (K : Int) (b : Nat) (h0 : 0 ≤ K)
    (hlen : K < (buf.length : Int)) (hb : buf[K.toNat]? = some b) :
    pyGetByte buf K = .ok b := by
  unfold pyGetByte pyIndex
  rw [if_pos ⟨h0, hlen⟩]
  simp only [hb]

lemma pySetByte_run (buf : List Nat) (K : Int) (v : Nat) (h0 : 0 ≤ K)
    (hlen : K < (buf.length : Int)) (hv : v < 256) :
    pySetByte buf K v = .ok (buf.set K.toNat v) := by
  unfold pySetByte pyIndex
  rw [if_pos ⟨h0, hlen⟩]
  simp only [if_pos hv]

/-- Claim C1 (confirmed).  For every buffer, the padding computed by
`get_padding` is at most 3, it completes `width * Bpp` to a multiple of 4,
and it is 0 exactly when `width * Bpp` is already a multiple of 4. -/
theorem padding_valid (buf : List Nat) :
    get_padding buf ≤ 3 ∧
    ((get_size buf).1 * get_Bpp buf + get_padding buf) % 4 = 0 ∧
    ((get_size buf).1 * get_Bpp buf % 4 = 0 → get_padding buf = 0) := by
  unfold get_padding
  generalize (get_size buf).1 * get_Bpp buf = n
  omega

/-- Witness for `padding_valid` on the 4-pixel 8-bit buffer `bufTight`,
whose row byte count 4 is divisible by 4, so the padding is 0. -/
theorem padding_valid_witness :
    get_padding bufTight ≤ 3 ∧
    ((get_size bufTight).1 * get_Bpp bufTight + get_padding bufTight) % 4 = 0 ∧
    get_padding bufTight = 0 := by
  obtain ⟨h1, h2, h3⟩ := padding_valid bufTight
  exact ⟨h1, h2, h3 (by decide)⟩

/-- Claim C2 counterexample.  On `bufBpp0` (bpp 0, width 4) the effective
row size is 0, so `get_pixel_offset` is constant in j: rows 0 and 1 are both
in bounds (height 2) but share the offset 30, refuting strict monotonicity
in j over every buffer. -/
theorem pixel_offset_not_strictly_increasing_cex :
    get_pixel_offset bufBpp0 0 0 = .ok 30 ∧
    get_pixel_offset bufBpp0 0 1 = .ok 30 ∧
    (1 : Int) < ((get_size bufBpp0).2 : Int) ∧ get_eff_rowsize bufBpp0 = 0 :=
  ⟨rfl, rfl, by decide, rfl⟩

lemma eff_rowsize_pos (buf : List Nat) (hbpp : 1 ≤ get_bpp buf)
    (hw : 1 ≤ (get_size buf).1) : 1 ≤ get_eff_rowsize buf := by
  have h1 : 1 ≤ get_rowsize_bpp buf := by
    have := Nat.mul_le_mul hbpp hw
    simpa [get_rowsize_bpp] using this
  unfold get_eff_rowsize get_rowsize
  omega

/-- Claim C2 amended.  Whenever bpp ≥ 1 (so the effective row size is
positive), `get_pixel_offset` is strictly increasing in j for a fixed
in-bounds i, and consecutive in-bounds rows differ by exactly
`get_eff_rowsize`. -/
theorem pixel_offset_row_stride (buf : List Nat) (i j : Int)
    (hbpp : 1 ≤ get_bpp buf)
    (hi0 : 0 ≤ i) (hiW : i < ((get_size buf).1 : Int))
    (hj0 : 0 ≤ j) (hjH : j + 1 < ((get_size buf).2 : Int)) :
    ∃ o o' : Int,
      get_pixel_offset buf i j = .ok o ∧
      get_pixel_offset buf i (j + 1) = .ok o' ∧
      o' - o = (get_eff_rowsize buf : Int) ∧ o < o' ∧
      ∀ j1 j2 o1 o2 : Int, 0 ≤ j1 → j1 < j2 → j2 < ((get_size buf).2 : Int) →
        get_pixel_offset buf i j1 = .ok o1 → get_pixel_offset buf i j2 = .ok o2 →
        o1 < o2 := by
  have hw : 1 ≤ (get_size buf).1 := by omega
  have hE : 1 ≤ get_eff_rowsize buf := eff_rowsize_pos buf hbpp hw
  have hEi : (1 : Int) ≤ (get_eff_rowsize buf : Int) := by exact_mod_cast hE
  refine ⟨_, _, get_pixel_offset_run buf i j hi0 hiW hj0 (by omega),
    get_pixel_offset_run buf i (j + 1) hi0 hiW (by omega) hjH, by ring, ?_, ?_⟩
  · have : (get_eff_rowsize buf : Int) * j < (get_eff_rowsize buf : Int) * (j + 1) := by
      nlinarith
    nlinarith
  · intro j1 j2 o1 o2 h1 h2 h3 e1 e2
    rw [get_pixel_offset_run buf i j1 hi0 hiW h1 (by omega)] at e1
    rw [get_pixel_offset_run buf i j2 hi0 hiW (by omega) h3] at e2
    have he1 := Except.ok.inj e1
    have he2 := Except.ok.inj e2
    have hmul : j1 * (get_eff_rowsize buf : Int) < j2 * (get_eff_rowsize buf : Int) :=
      mul_lt_mul_of_pos_right h2 (by omega)
    omega

/-- Witness for `pixel_offset_row_stride` on the 1-by-2 24-bit buffer
`buf24h2`: rows 0 and 1 of column 0 sit at offsets 30 and 34, which differ
by the effective row size 4. -/
theorem pixel_offset_row_stride_witness :
    get_pixel_offset buf24h2 0 0 = .ok 30 ∧
    get_pixel_offset buf24h2 0 1 = .ok 34 ∧
    (34 : Int) - 30 = (get_eff_rowsize buf24h2 : Int) ∧ (30 : Int) < 34 := by
  obtain ⟨o, o', e1, e2, e3, e4, -⟩ :=
    pixel_offset_row_stride buf24h2 0 0 (by decide) (by decide) (by decide)
      (by decide) (by decide)
  have c1 : get_pixel_offset buf24h2 0 0 = .ok 30 := rfl
  have c2 : get_pixel_offset buf24h2 0 1 = .ok 34 := rfl
  norm_num at e2
  rw [c1] at e1
  rw [c2] at e2
  obtain rfl := Except.ok.inj e1
  obtain rfl := Except.ok.inj e2
  exact ⟨c1, c2, e3, e4⟩

/-- Claim C6 (code bug exhibit).  On `bufNeg`, whose height field bytes are
FF FF FF FF, the source's `get_size` returns the unsigned value 4294967295,
while the signed 32-bit little-endian read that the spec (and the source's
own docstring) prescribe yields -1. -/
theorem get_size_unsigned_divergence :
    get_size bufNeg = (1, 4294967295) ∧
    leSigned32 (pySlice bufNeg 22 26) = -1 ∧
    ((get_size bufNeg).2 : Int) ≠ leSigned32 (pySlice bufNeg 22 26) :=
  ⟨rfl, by decide, by decide⟩

lemma pySlice_nil (buf : List Nat) (a b : Nat) (h : buf.length ≤ a) :
    pySlice buf a b = [] := by
  apply List.drop_eq_nil_of_le
  have := List.length_take b buf
  omega

/-- Claim C7 amended.  Header reads on an undersized buffer do not fail:
Python slicing truncates, so each read returns the little-endian value of
whatever bytes exist in its range; on a buffer of at most 10 bytes every
header field reads as 0. -/
theorem header_reads_short_buffer (buf : List Nat) (h : buf.length ≤ 10) :
    get_offset buf = 0 ∧ get_size buf = (0, 0) ∧ get_bpp buf = 0 := by
  unfold get_offset get_size get_bpp
  rw [pySlice_nil buf 10 14 (by omega), pySlice_nil buf 18 22 (by omega),
    pySlice_nil buf 22 26 (by omega), pySlice_nil buf 28 30 (by omega)]
  exact ⟨rfl, rfl, rfl⟩

/-- Witness for `header_reads_short_buffer` on the empty buffer. -/
theorem header_reads_short_buffer_witness :
    get_offset [] = 0 ∧ get_size [] = (0, 0) ∧ get_bpp [] = 0 :=
  header_reads_short_buffer [] (by decide)

/-- Claim C7 counterexample.  On the 20-byte buffer `bufShort` the header
reads succeed and `get_size` returns (513, 0): the width is computed from
the two bytes 1, 2 that remain of its 4-byte range (a partial read), and no
out-of-bounds failure occurs. -/
theorem short_buffer_partial_read_cex :
    bufShort.length = 20 ∧ get_size bufShort = (513, 0) ∧
    get_offset bufShort = 0 ∧ get_bpp bufShort = 0 :=
  ⟨rfl, rfl, rfl, rfl⟩

/-! ### Successful mutation runs and the bit-level facts they need -/

lemma apply_bitmask_run (buf : List Nat) (i j layer K : Int) (f : Nat → Nat)
    (b : Nat)
    (hK : K = (get_offset buf : Int) + j * (get_eff_rowsize buf : Int) +
      i * (get_Bpp buf : Int) + layer)
    (hi0 : 0 ≤ i) (hiW : i < ((get_size buf).1 : Int))
    (hj0 : 0 ≤ j) (hjH : j < ((get_size buf).2 : Int))
    (hlB : layer < (get_Bpp buf : Int))
    (hK0 : 0 ≤ K) (hKlen : K < (buf.length : Int))
    (hb : buf[K.toNat]? = some b) (hv : f b < 256) :
    apply_bitmask buf i j layer (.ok f) = .ok (buf.set K.toNat (f b)) := by
  simp only [apply_bitmask, check_width_ok buf i hi0 hiW,
    check_height_ok buf j hj0 hjH, check_layer_ok buf layer hlB,
    get_pixel_offset_run buf i j hi0 hiW hj0 hjH]
  rw [← hK, pyGetByte_run buf K b hK0 hKlen hb]
  exact pySetByte_run buf K (f b) hK0 hKlen hv

lemma set_one_run (buf : List Nat) (i j layer s K : Int) (b : Nat)
    (hK : K = (get_offset buf : Int) + j * (get_eff_rowsize buf : Int) +
      i * (get_Bpp buf : Int) + layer)
    (hi0 : 0 ≤ i) (hiW : i < ((get_size buf).1 : Int))
    (hj0 : 0 ≤ j) (hjH : j < ((get_size buf).2 : Int))
    (hlB : layer < (get_Bpp buf : Int))
    (hs0 : 0 ≤ s) (hsP : s < (get_bpp buf : Int))
    (hK0 : 0 ≤ K) (hKlen : K < (buf.length : Int))
    (hb : buf[K.toNat]? = some b) (hv : b ||| 1 <<< s.toNat < 256) :
    set_one buf i j layer s = .ok (buf.set K.toNat (b ||| 1 <<< s.toNat)) := by
  simp only [set_one, check_sublayer_ok buf s hsP, if_neg (not_lt.mpr hs0)]
  exact apply_bitmask_run buf i j layer K _ b hK hi0 hiW hj0 hjH hlB hK0 hKlen hb hv

lemma set_zero_run (buf : List Nat) (i j layer s K : Int) (b : Nat)
    (hK : K = (get_offset buf : Int) + j * (get_eff_rowsize buf : Int) +
      i * (get_Bpp buf : Int) + layer)
    (hi0 : 0 ≤ i) (hiW : i < ((get_size buf).1 : Int))
    (hj0 : 0 ≤ j) (hjH : j < ((get_size buf).2 : Int))
    (hlB : layer < (get_Bpp buf : Int))
    (hs0 : 0 ≤ s) (hsP : s < (get_bpp buf : Int))
    (hK0 : 0 ≤ K) (hKlen : K < (buf.length : Int))
    (hb : buf[K.toNat]? = some b)
    (hv : b &&& (255 ^^^ 1 <<< s.toNat) < 256) :
    set_zero buf i j layer s =
      .ok (buf.set K.toNat (b &&& (255 ^^^ 1 <<< s.toNat))) := by
  simp only [set_zero, check_sublayer_ok buf s hsP, if_neg (not_lt.mpr hs0)]
  exact apply_bitmask_run buf i j layer K _ b hK hi0 hiW hj0 hjH hlB hK0 hKlen hb hv

lemma target_index_cast (buf : List Nat) (i j layer : Int)
    (hi0 : 0 ≤ i) (hj0 : 0 ≤ j) (hl0 : 0 ≤ layer) :
    ((target_index buf i j layer : Nat) : Int) =
      (get_offset buf : Int) + j * (get_eff_rowsize buf : Int) +
        i * (get_Bpp buf : Int) + layer := by
  unfold target_index
  push_cast
  rw [Int.toNat_of_nonneg hi0, Int.toNat_of_nonneg hj0, Int.toNat_of_nonneg hl0]

lemma testBit_or_mask_self (b t : Nat) : (b ||| 1 <<< t).testBit t = true := by
  rw [Nat.testBit_or, Nat.one_shiftLeft, Nat.testBit_two_pow_self, Bool.or_true]

lemma testBit_or_mask_other (b t k : Nat) (hk : k ≠ t) :
    (b ||| 1 <<< t).testBit k = b.testBit k := by
  rw [Nat.testBit_or, Nat.one_shiftLeft, Nat.testBit_two_pow_of_ne (Ne.symm hk),
    Bool.or_false]

lemma testBit_255 (k : Nat) : (255 : Nat).testBit k = decide (k < 8) := by
  have h : (255 : Nat) = 2 ^ 8 - 1 := by norm_num
  rw [h, Nat.testBit_two_pow_sub_one]

lemma testBit_and_mask_self (b t : Nat) (ht : t < 8) :
    (b &&& (255 ^^^ 1 <<< t)).testBit t = false := by
  simp [Nat.testBit_and, Nat.testBit_xor, Nat.one_shiftLeft,
    Nat.testBit_two_pow_self, testBit_255, ht]

lemma testBit_and_mask_other (b t k : Nat) (hk8 : k < 8) (hk : k ≠ t) :
    (b &&& (255 ^^^ 1 <<< t)).testBit k = b.testBit k := by
  simp [Nat.testBit_and, Nat.testBit_xor, Nat.one_shiftLeft,
    Nat.testBit_two_pow_of_ne (Ne.symm hk), testBit_255, hk8]

lemma or_mask_lt_256 (b t : Nat) (hb : b < 256) (ht : t < 8) :
    b ||| 1 <<< t < 256 := by
  have h8 : (256 : Nat) = 2 ^ 8 := by norm_num
  rw [h8] at hb ⊢
  exact Nat.or_lt_two_pow hb
    (by rw [Nat.one_shiftLeft]; exact Nat.pow_lt_pow_right (by norm_num) ht)

lemma and_mask_lt_256 (b m : Nat) (hb : b < 256) : b &&& m < 256 :=
  lt_of_le_of_lt Nat.and_le_left hb

/-- Claim C3 counterexample.  On `buf24` (bpp 24) the tuple
(0, 0, 0, 8) is accepted by every bounds check — in particular sublayer 8 <
bpp 24 passes `check_sublayer` — yet `set_one` raises ValueError (the store
`raw_image[offset] |= 256` leaves the byte range) instead of setting a bit,
so the claim fails for accepted sublayers ≥ 8. -/
theorem set_one_high_sublayer_cex :
    set_one buf24 0 0 0 8 = .error .valueError ∧
    check_sublayer buf24 8 = .ok () ∧
    get_Bpp buf24 = 3 ∧ get_bpp buf24 = 24 :=
  ⟨rfl, rfl, rfl, rfl⟩

/-- Claim C3 amended.  For every byte buffer and every tuple accepted by the
bounds checks whose sublayer is moreover < 8 and whose target byte lies
inside the buffer, `set_one` sets bit `sublayer` of the byte at
`get_pixel_offset(i,j) + layer` to 1, `set_zero` sets it to 0, and neither
call alters any other bit of that byte. -/
theorem set_bit_roundtrip (buf : List Nat) (i j layer s : Int) (b : Nat)
    (hi0 : 0 ≤ i) (hiW : i < ((get_size buf).1 : Int))
    (hj0 : 0 ≤ j) (hjH : j < ((get_size buf).2 : Int))
    (hl0 : 0 ≤ layer) (hlB : layer < (get_Bpp buf : Int))
    (hs0 : 0 ≤ s) (hsP : s < (get_bpp buf : Int)) (hs8 : s < 8)
    (hlen : target_index buf i j layer < buf.length)
    (hb : buf[target_index buf i j layer]? = some b) (hb256 : b < 256) :
    set_one buf i j layer s =
      .ok (buf.set (target_index buf i j layer) (b ||| 1 <<< s.toNat)) ∧
    set_zero buf i j layer s =
      .ok (buf.set (target_index buf i j layer)
        (b &&& (255 ^^^ 1 <<< s.toNat))) ∧
    (b ||| 1 <<< s.toNat).testBit s.toNat = true ∧
    (b &&& (255 ^^^ 1 <<< s.toNat)).testBit s.toNat = false ∧
    ∀ k, k < 8 → k ≠ s.toNat →
      (b ||| 1 <<< s.toNat).testBit k = b.testBit k ∧
      (b &&& (255 ^^^ 1 <<< s.toNat)).testBit k = b.testBit k := by
  have hs8n : s.toNat < 8 := by omega
  have hKcast := target_index_cast buf i j layer hi0 hj0 hl0
  have htn : ((target_index buf i j layer : Nat) : Int).toNat =
      target_index buf i j layer := Int.toNat_natCast _
  refine ⟨?_, ?_, testBit_or_mask_self b s.toNat,
    testBit_and_mask_self b s.toNat hs8n,
    fun k hk8 hkne => ⟨testBit_or_mask_other b s.toNat k hkne,
      testBit_and_mask_other b s.toNat k hk8 hkne⟩⟩
  · have h := set_one_run buf i j layer s
      ((target_index buf i j layer : Nat) : Int) b hKcast hi0 hiW hj0 hjH hlB
      hs0 hsP (Int.natCast_nonneg _) (by exact_mod_cast hlen)
      (by rw [htn]; exact hb) (or_mask_lt_256 b s.toNat hb256 hs8n)
    rw [htn] at h
    exact h
  · have h := set_zero_run buf i j layer s
      ((target_index buf i j layer : Nat) : Int) b hKcast hi0 hiW hj0 hjH hlB
      hs0 hsP (Int.natCast_nonneg _) (by exact_mod_cast hlen)
      (by rw [htn]; exact hb) (and_mask_lt_256 b _ hb256)
    rw [htn] at h
    exact h

/-- Witness for `set_bit_roundtrip` on `buf24` at pixel (0,0), layer 0,
sublayer 0: byte 30 becomes 1 under set_one and 0 under set_zero. -/
theorem set_bit_roundtrip_witness :
    set_one buf24 0 0 0 0 = .ok (buf24.set 30 1) ∧
    set_zero buf24 0 0 0 0 = .ok (buf24.set 30 0) := by
  obtain ⟨h1, h2, -, -, -⟩ := set_bit_roundtrip buf24 0 0 0 0 0 (by decide)
    (by decide) (by decide) (by decide) (by decide) (by decide) (by decide)
    (by decide) (by decide) (by decide) (by decide) (by decide)
  exact ⟨h1, h2⟩

/-- Claim C10 counterexample.  On `buf24` (payload offset 30, non-empty
payload, 34 bytes) the accepted call `set_one(0, 0, -31, 0)` computes the
byte index 30 - 31 = -1, which Python's bytearray indexing wraps to 33, the
LAST byte of the buffer: the mutation lands inside the pixel array, not
strictly before it, so the claimed location `payload_offset + layer` inside
the header/color-table region is wrong for layers below `-payload_offset`. -/
theorem negative_layer_wraparound_cex :
    set_one buf24 0 0 (-31) 0 = .ok (buf24.set 33 1) ∧
    (buf24.set 33 1).take 30 = buf24.take 30 ∧
    buf24.set 33 1 ≠ buf24 ∧
    get_offset buf24 = 30 ∧ 0 < get_payload_size buf24 :=
  ⟨rfl, by decide, by decide, rfl, by decide⟩

/-- Claim C10 amended.  For every byte buffer with non-empty payload, every
in-bounds (i, j), every sublayer in [0, min(bpp, 8)), and every negative
layer whose resolved byte index `K = pixel_offset + layer` still lies inside
the buffer, `check_layer` accepts the negative layer and `set_one` and
`set_zero` proceed and mutate the byte at K; for pixel (0, 0) that byte lies
at `payload_offset + layer`, strictly before the pixel array. -/
theorem negative_layer_mutates_header (buf : List Nat) (i j layer s K : Int)
    (b : Nat)
    (hK : K = (get_offset buf : Int) + j * (get_eff_rowsize buf : Int) +
      i * (get_Bpp buf : Int) + layer)
    (_hpay : 0 < get_payload_size buf)
    (hi0 : 0 ≤ i) (hiW : i < ((get_size buf).1 : Int))
    (hj0 : 0 ≤ j) (hjH : j < ((get_size buf).2 : Int))
    (hneg : layer < 0)
    (hs0 : 0 ≤ s) (hsP : s < (get_bpp buf : Int)) (hs8 : s < 8)
    (hK0 : 0 ≤ K) (hKlen : K < (buf.length : Int))
    (hb : buf[K.toNat]? = some b) (hb256 : b < 256) :
    check_layer buf layer = .ok () ∧
    set_one buf i j layer s = .ok (buf.set K.toNat (b ||| 1 <<< s.toNat)) ∧
    set_zero buf i j layer s =
      .ok (buf.set K.toNat (b &&& (255 ^^^ 1 <<< s.toNat))) ∧
    (i = 0 → j = 0 → K < (get_offset buf : Int)) := by
  have hB0 : (0 : Int) ≤ (get_Bpp buf : Int) := Int.natCast_nonneg _
  have hlB : layer < (get_Bpp buf : Int) := by omega
  refine ⟨check_layer_ok buf layer hlB,
    set_one_run buf i j layer s K b hK hi0 hiW hj0 hjH hlB hs0 hsP hK0 hKlen
      hb (or_mask_lt_256 b s.toNat hb256 (by omega)),
    set_zero_run buf i j layer s K b hK hi0 hiW hj0 hjH hlB hs0 hsP hK0 hKlen
      hb (and_mask_lt_256 b _ hb256), ?_⟩
  intro hi hj
  subst hi
  subst hj
  rw [hK]
  simp only [zero_mul, add_zero]
  omega

/-! ### Frame property and error behaviour of the mutation calls -/

lemma pySetByte_shape {buf : List Nat} {K : Int} {v : Nat} {out : List Nat}
    (h : pySetByte buf K v = .ok out) : ∃ t, out = buf.set t v := by
  unfold pySetByte at h
  cases hp : pyIndex buf.length K with
  | none => rw [hp] at h; simp at h
  | some t =>
    simp only [hp] at h
    by_cases hv : v < 256
    · rw [if_pos hv] at h
      exact ⟨t, (Except.ok.inj h).symm⟩
    · rw [if_neg hv] at h
      simp at h

lemma apply_bitmask_shape {buf : List Nat} {i j layer : Int}
    {tf : Except PyErr (Nat → Nat)} {out : List Nat}
    (h : apply_bitmask buf i j layer tf = .ok out) :
    ∃ t v, out = buf.set t v := by
  unfold apply_bitmask at h
  repeat' split at h
  all_goals
    first
    | simp at h
    | (obtain ⟨t, ht⟩ := pySetByte_shape h; exact ⟨t, _, ht⟩)

lemma set_one_shape {buf : List Nat} {i j layer s : Int} {out : List Nat}
    (h : set_one buf i j layer s = .ok out) : ∃ t v, out = buf.set t v := by
  unfold set_one at h
  split at h
  · simp at h
  · exact apply_bitmask_shape h

lemma set_zero_shape {buf : List Nat} {i j layer s : Int} {out : List Nat}
    (h : set_zero buf i j layer s = .ok out) : ∃ t v, out = buf.set t v := by
  unfold set_zero at h
  split at h
  · simp at h
  · exact apply_bitmask_shape h

/-- Claim C4 counterexample.  The call `set_one(0, 0, 0, 0)` on `buf8one`
succeeds, but bit 0 of the target byte 30 is already 1, so the buffer comes
back entirely unchanged: zero bytes are modified by this successful call,
not exactly one. -/
theorem set_one_no_byte_modified_cex :
    set_one buf8one 0 0 0 0 = .ok buf8one ∧ buf8one[30]? = some 1 :=
  ⟨rfl, rfl⟩

/-- Claim C4 amended.  Every successful `set_one`, `set_zero` or
`apply_bitmask` call writes at most one byte position: there is an index t
such that every other byte, header and padding bytes included, is unchanged,
and the buffer length is never changed.  (The written byte may coincide with
its old value, as when setting a bit that is already set, so "exactly one
byte is modified" weakens to "at most one".) -/
theorem mutation_frame (buf out : List Nat) (i j layer s : Int)
    (tf : Except PyErr (Nat → Nat))
    (h : apply_bitmask buf i j layer tf = .ok out ∨
      set_one buf i j layer s = .ok out ∨ set_zero buf i j layer s = .ok out) :
    out.length = buf.length ∧
      ∃ t : Nat, ∀ k : Nat, k ≠ t → out[k]? = buf[k]? := by
  have hshape : ∃ t v, out = buf.set t v := by
    rcases h with h | h | h
    · exact apply_bitmask_shape h
    · exact set_one_shape h
    · exact set_zero_shape h
  obtain ⟨t, v, rfl⟩ := hshape
  refine ⟨by simp, t, fun k hk => ?_⟩
  exact List.getElem?_set_ne (Ne.symm hk)

/-- Witness for `mutation_frame`: the successful call
`set_one(0, 0, 0, 0)` on `buf8` produces `buf8.set 30 1`, same length and
all bytes other than one position unchanged. -/
theorem mutation_frame_witness :
    (buf8.set 30 1).length = buf8.length ∧
    ∃ t : Nat, ∀ k : Nat, k ≠ t → (buf8.set 30 1)[k]? = buf8[k]? :=
  mutation_frame buf8 (buf8.set 30 1) 0 0 0 0 (.error .valueError)
    (.inr (.inl rfl))

/-- Claim C5 counterexample.  On `buf8` (Bpp 1) the layer -1 lies outside
the valid half-open range [0, 1), yet `set_one(0, 0, -1, 0)` raises no
error: it succeeds and mutates byte 29 (the high byte of the bpp header
field), because `check_layer` tests only the upper bound. -/
theorem negative_layer_no_error_cex :
    set_one buf8 0 0 (-1) 0 = .ok (buf8.set 29 1) ∧
    buf8.set 29 1 ≠ buf8 ∧ get_Bpp buf8 = 1 :=
  ⟨rfl, by decide, rfl⟩

/-- Claim C5 amended.  A mutation call raises `ValueNotInExcludeEnd` carrying
the offending value and the exact [0, end) bound when i or j is out of range
on either side or when layer ≥ Bpp or sublayer ≥ bpp (checked in the order
sublayer, i, j, layer); negative layer and sublayer values are not rejected.
Validation precedes mutation, so an error means the buffer is unchanged (an
error result carries no new buffer).  At the boundaries, `check_width(width)`,
`check_height(height)`, `check_layer(Bpp)` and `check_sublayer(bpp)` all
raise, and if width ≥ 1 then `check_width(0)` and `check_width(width-1)`
never raise. -/
theorem bounds_check_errors (buf : List Nat) (i j layer s : Int) :
    ((get_bpp buf : Int) ≤ s →
      set_one buf i j layer s = .error (.vnie s 0 (get_bpp buf : Int))) ∧
    (s < (get_bpp buf : Int) → (i < 0 ∨ ((get_size buf).1 : Int) ≤ i) →
      set_one buf i j layer s = .error (.vnie i 0 ((get_size buf).1 : Int))) ∧
    (s < (get_bpp buf : Int) → 0 ≤ i → i < ((get_size buf).1 : Int) →
      (j < 0 ∨ ((get_size buf).2 : Int) ≤ j) →
      set_one buf i j layer s = .error (.vnie j 0 ((get_size buf).2 : Int))) ∧
    (s < (get_bpp buf : Int) → 0 ≤ i → i < ((get_size buf).1 : Int) →
      0 ≤ j → j < ((get_size buf).2 : Int) → (get_Bpp buf : Int) ≤ layer →
      set_one buf i j layer s = .error (.vnie layer 0 (get_Bpp buf : Int))) ∧
    check_width buf ((get_size buf).1 : Int) =
      .error (.vnie ((get_size buf).1 : Int) 0 ((get_size buf).1 : Int)) ∧
    check_height buf ((get_size buf).2 : Int) =
      .error (.vnie ((get_size buf).2 : Int) 0 ((get_size buf).2 : Int)) ∧
    check_layer buf (get_Bpp buf : Int) =
      .error (.vnie (get_Bpp buf : Int) 0 (get_Bpp buf : Int)) ∧
    check_sublayer buf (get_bpp buf : Int) =
      .error (.vnie (get_bpp buf : Int) 0 (get_bpp buf : Int)) ∧
    (1 ≤ (get_size buf).1 →
      check_width buf 0 = .ok () ∧
      check_width buf (((get_size buf).1 : Int) - 1) = .ok ()) := by
  refine ⟨?_, ?_, ?_, ?_, check_width_err buf _ (Or.inr le_rfl),
    check_height_err buf _ (Or.inr le_rfl), check_layer_err buf _ le_rfl,
    check_sublayer_err buf _ le_rfl, fun hW =>
      ⟨check_width_ok buf 0 le_rfl (by omega),
       check_width_ok buf _ (by omega) (by omega)⟩⟩
  · intro hs
    simp only [set_one, check_sublayer_err buf s hs]
  · intro hs hi
    simp only [set_one, check_sublayer_ok buf s hs, apply_bitmask,
      check_width_err buf i hi]
  · intro hs hi0 hiW hj
    simp only [set_one, check_sublayer_ok buf s hs, apply_bitmask,
      check_width_ok buf i hi0 hiW, check_height_err buf j hj]
  · intro hs hi0 hiW hj0 hjH hl
    simp only [set_one, check_sublayer_ok buf s hs, apply_bitmask,
      check_width_ok buf i hi0 hiW, check_height_ok buf j hj0 hjH,
      check_layer_err buf layer hl]

/-- Witness for `bounds_check_errors` on `buf8` (bpp 8, width 1): sublayer 9
is rejected with the exact bound [0, 8), and the boundary calls
`check_width(0)` and `check_width(width-1)` succeed. -/
theorem bounds_check_errors_witness :
    set_one buf8 0 0 0 9 = .error (.vnie 9 0 8) ∧
    check_width buf8 0 = .ok () ∧
    check_width buf8 ((1 : Int) - 1) = .ok () := by
  obtain ⟨h1, -, -, -, -, -, -, -, h9⟩ := bounds_check_errors buf8 0 0 0 9
  obtain ⟨hw0, hw1⟩ := h9 (by decide)
  exact ⟨h1 (by decide), hw0, hw1⟩

/-- Witness for `negative_layer_mutates_header` on `buf8`: the accepted call
`set_one(0, 0, -1, 0)` mutates byte 29 = payload_offset - 1, the high byte
of the bits-per-pixel header field. -/
theorem negative_layer_mutates_header_witness :
    check_layer buf8 (-1) = .ok () ∧
    set_one buf8 0 0 (-1) 0 = .ok (buf8.set 29 1) ∧
    set_zero buf8 0 0 (-1) 0 = .ok (buf8.set 29 0) ∧
    ((0 : Int) = 0 → (0 : Int) = 0 → (29 : Int) < (get_offset buf8 : Int)) :=
  negative_layer_mutates_header buf8 0 0 (-1) 0 29 0 (by decide) (by decide)
    (by decide) (by decide) (by decide) (by decide) (by decide) (by decide)
    (by decide) (by decide) (by decide) (by decide) (by decide) (by decide)

/-! ### Payload replacement -/

/-- Claim C8 counterexample.  On `bufTight` the payload range claimed by the
header, [28, 32), sticks out of the 30-byte buffer; `set_payload` with a
correctly sized 4-byte payload then splices instead of overwriting: the
result has 32 bytes, so the call did not overwrite exactly the sub-range
(it resized the buffer). -/
theorem set_payload_resizes_cex :
    set_payload bufTight [9, 9, 9, 9] =
      .ok (bufTight.take 28 ++ [9, 9, 9, 9]) ∧
    (bufTight.take 28 ++ [9, 9, 9, 9]).length = 32 ∧ bufTight.length = 30 ∧
    get_offset bufTight = 28 ∧ get_payload_size bufTight = 4 :=
  ⟨rfl, rfl, rfl, rfl, rfl⟩

/-- Claim C8 amended.  Whenever the payload range fits inside the buffer
(payload_offset + payload_size ≤ length), `set_payload` with a byte count
equal to payload_size overwrites exactly the sub-range
[payload_offset, payload_offset + payload_size): length preserved, bytes
before and after the range unchanged, bytes inside the range taken from the
supplied payload; any other byte count (in particular payload_size - 1)
fails with the size-mismatch ValueError, and an error result carries no new
buffer. -/
theorem set_payload_spec (buf p : List Nat)
    (hfit : get_offset buf + get_payload_size buf ≤ buf.length) :
    (p.length ≠ get_payload_size buf →
      set_payload buf p = .error .valueError) ∧
    (p.length = get_payload_size buf →
      ∃ out : List Nat, set_payload buf p = .ok out ∧
        out.length = buf.length ∧
        (∀ k : Nat, k < get_offset buf → out[k]? = buf[k]?) ∧
        (∀ k : Nat, get_offset buf + get_payload_size buf ≤ k →
          out[k]? = buf[k]?) ∧
        (∀ m : Nat, m < get_payload_size buf →
          out[get_offset buf + m]? = p[m]?)) := by
  constructor
  · intro hne
    unfold set_payload
    rw [if_pos hne]
  · intro hlen
    have hA : (buf.take (get_offset buf)).length = get_offset buf := by
      rw [List.length_take]
      omega
    have hAB : (buf.take (get_offset buf) ++ p).length =
        get_offset buf + get_payload_size buf := by
      rw [List.length_append, hA, hlen]
    refine ⟨buf.take (get_offset buf) ++ p ++
      buf.drop (get_offset buf + get_payload_size buf), ?_, ?_, ?_, ?_, ?_⟩
    · unfold set_payload
      rw [if_neg (not_not_intro hlen)]
    · rw [List.length_append, List.length_append, hA, hlen, List.length_drop]
      omega
    · intro k hk
      rw [List.getElem?_append_left (by rw [hAB]; omega),
        List.getElem?_append_left (by rw [hA]; omega),
        List.getElem?_take, if_pos hk]
    · intro k hk
      rw [List.getElem?_append_right (by rw [hAB]; omega), hAB,
        List.getElem?_drop]
      congr 1
      omega
    · intro m hm
      rw [List.getElem?_append_left (by rw [hAB]; omega),
        List.getElem?_append_right (by rw [hA]; omega), hA]
      congr 1
      omega

/-- Witness for `set_payload_spec` on `buf8` (payload range [30, 34) inside
the 34-byte buffer): a 3-byte payload (payload_size - 1) is rejected with
ValueError, a 4-byte payload overwrites exactly [30, 34). -/
theorem set_payload_spec_witness :
    set_payload buf8 [1, 2, 3] = .error .valueError ∧
    ∃ out : List Nat, set_payload buf8 [1, 2, 3, 4] = .ok out ∧
      out.length = buf8.length ∧
      (∀ k : Nat, k < get_offset buf8 → out[k]? = buf8[k]?) ∧
      (∀ k : Nat, get_offset buf8 + get_payload_size buf8 ≤ k →
        out[k]? = buf8[k]?) ∧
      (∀ m : Nat, m < get_payload_size buf8 →
        out[get_offset buf8 + m]? = [1, 2, 3, 4][m]?) := by
  obtain ⟨hne, -⟩ := set_payload_spec buf8 [1, 2, 3] (by decide)
  obtain ⟨-, hok⟩ := set_payload_spec buf8 [1, 2, 3, 4] (by decide)
  exact ⟨hne (by decide), hok (by decide)⟩

/-! ### Idempotence of the bit mutations -/

lemma take_set_of_le {α : Type} (l : List α) (v : α) (n t : Nat) (h : n ≤ t) :
    (l.set t v).take n = l.take n := by
  induction l generalizing n t with
  | nil => rfl
  | cons a l ih =>
    cases n with
    | zero => rfl
    | succ n =>
      cases t with
      | zero => omega
      | succ t =>
        simp only [List.set, List.take]
        rw [ih n t (by omega)]

lemma pySlice_set_of_le (buf : List Nat) (v : Nat) (a b t : Nat) (h : b ≤ t) :
    pySlice (buf.set t v) a b = pySlice buf a b := by
  unfold pySlice
  rw [take_set_of_le buf v b t h]

/-- Writing any byte at an index ≥ 30 leaves every header field, and hence
the whole derived geometry, unchanged. -/
lemma geometry_stable (buf : List Nat) (v : Nat) (t : Nat) (h : 30 ≤ t) :
    get_offset (buf.set t v) = get_offset buf ∧
    get_size (buf.set t v) = get_size buf ∧
    get_bpp (buf.set t v) = get_bpp buf ∧
    get_Bpp (buf.set t v) = get_Bpp buf ∧
    get_eff_rowsize (buf.set t v) = get_eff_rowsize buf := by
  have h1 : get_offset (buf.set t v) = get_offset buf := by
    unfold get_offset
    rw [pySlice_set_of_le buf v 10 14 t (by omega)]
  have h2 : get_size (buf.set t v) = get_size buf := by
    unfold get_size
    rw [pySlice_set_of_le buf v 18 22 t (by omega),
      pySlice_set_of_le buf v 22 26 t (by omega)]
  have h3 : get_bpp (buf.set t v) = get_bpp buf := by
    unfold get_bpp
    rw [pySlice_set_of_le buf v 28 30 t (by omega)]
  have h4 : get_Bpp (buf.set t v) = get_Bpp buf := by
    unfold get_Bpp
    rw [h3]
  refine ⟨h1, h2, h3, h4, ?_⟩
  unfold get_eff_rowsize get_rowsize get_rowsize_bpp get_padding
  rw [h2, h3, h4]

lemma pyIndex_nonneg_inv {len : Nat} {K : Int} {t : Nat} (h0 : 0 ≤ K)
    (h : pyIndex len K = some t) : K < (len : Int) ∧ t = K.toNat := by
  unfold pyIndex at h
  by_cases hc : 0 ≤ K ∧ K < (len : Int)
  · rw [if_pos hc] at h
    exact ⟨hc.2, (Option.some.inj h).symm⟩
  · rw [if_neg hc, if_neg (by omega)] at h
    simp at h

lemma pyGetByte_ok_inv {buf : List Nat} {K : Int} {b : Nat}
    (h : pyGetByte buf K = .ok b) :
    ∃ t : Nat, pyIndex buf.length K = some t ∧ buf[t]? = some b := by
  unfold pyGetByte at h
  cases hp : pyIndex buf.length K with
  | none => rw [hp] at h; simp at h
  | some t =>
    simp only [hp] at h
    cases hb : buf[t]? with
    | none => rw [hb] at h; simp at h
    | some c =>
      simp only [hb] at h
      exact ⟨t, rfl, by rw [hb, Except.ok.inj h]⟩

lemma pySetByte_ok_inv {buf : List Nat} {K : Int} {v : Nat} {out : List Nat}
    (h : pySetByte buf K v = .ok out) :
    ∃ t : Nat, pyIndex buf.length K = some t ∧ v < 256 ∧
      out = buf.set t v := by
  unfold pySetByte at h
  cases hp : pyIndex buf.length K with
  | none => rw [hp] at h; simp at h
  | some t =>
    simp only [hp] at h
    by_cases hv : v < 256
    · rw [if_pos hv] at h
      exact ⟨t, rfl, hv, (Except.ok.inj h).symm⟩
    · rw [if_neg hv] at h
      simp at h

lemma apply_bitmask_tf_error {buf : List Nat} {i j layer : Int} {e : PyErr}
    {out : List Nat} (h : apply_bitmask buf i j layer (.error e) = .ok out) :
    False := by
  unfold apply_bitmask at h
  repeat' split at h
  all_goals simp_all

lemma apply_bitmask_ok_inv {buf : List Nat} {i j layer : Int} {f : Nat → Nat}
    {out : List Nat} (h : apply_bitmask buf i j layer (.ok f) = .ok out) :
    0 ≤ i ∧ i < ((get_size buf).1 : Int) ∧
    0 ≤ j ∧ j < ((get_size buf).2 : Int) ∧
    layer < (get_Bpp buf : Int) ∧
    ∃ (t : Nat) (b : Nat),
      pyIndex buf.length ((get_offset buf : Int) +
        j * (get_eff_rowsize buf : Int) + i * (get_Bpp buf : Int) + layer) =
        some t ∧
      buf[t]? = some b ∧ f b < 256 ∧ out = buf.set t (f b) := by
  by_cases hw : i < 0 ∨ ((get_size buf).1 : Int) ≤ i
  · exfalso
    simp only [apply_bitmask, check_width_err buf i hw] at h
    exact Except.noConfusion h
  by_cases hh : j < 0 ∨ ((get_size buf).2 : Int) ≤ j
  · exfalso
    simp only [apply_bitmask, check_width_ok buf i (by omega) (by omega),
      check_height_err buf j hh] at h
    exact Except.noConfusion h
  by_cases hl : (get_Bpp buf : Int) ≤ layer
  · exfalso
    simp only [apply_bitmask, check_width_ok buf i (by omega) (by omega),
      check_height_ok buf j (by omega) (by omega),
      check_layer_err buf layer hl] at h
    exact Except.noConfusion h
  simp only [apply_bitmask, check_width_ok buf i (by omega) (by omega),
    check_height_ok buf j (by omega) (by omega),
    check_layer_ok buf layer (by omega),
    get_pixel_offset_run buf i j (by omega) (by omega) (by omega) (by omega)]
    at h
  cases hg : pyGetByte buf ((get_offset buf : Int) +
      j * (get_eff_rowsize buf : Int) + i * (get_Bpp buf : Int) + layer) with
  | error e =>
    rw [hg] at h
    simp at h
  | ok b =>
    simp only [hg] at h
    obtain ⟨t, hpy, hv, hout⟩ := pySetByte_ok_inv h
    obtain ⟨t2, hpy2, hb⟩ := pyGetByte_ok_inv hg
    rw [hpy] at hpy2
    obtain rfl := Option.some.inj hpy2
    exact ⟨by omega, by omega, by omega, by omega, by omega, t, b, hpy, hb,
      hv, hout⟩

lemma set_one_ok_inv {buf out : List Nat} {i j layer s : Int}
    (h : set_one buf i j layer s = .ok out) :
    0 ≤ s ∧ s < (get_bpp buf : Int) ∧
    0 ≤ i ∧ i < ((get_size buf).1 : Int) ∧
    0 ≤ j ∧ j < ((get_size buf).2 : Int) ∧
    layer < (get_Bpp buf : Int) ∧
    ∃ (t : Nat) (b : Nat),
      pyIndex buf.length ((get_offset buf : Int) +
        j * (get_eff_rowsize buf : Int) + i * (get_Bpp buf : Int) + layer) =
        some t ∧
      buf[t]? = some b ∧ b ||| 1 <<< s.toNat < 256 ∧
      out = buf.set t (b ||| 1 <<< s.toNat) := by
  by_cases hsP : (get_bpp buf : Int) ≤ s
  · exfalso
    simp only [set_one, check_sublayer_err buf s hsP] at h
    exact Except.noConfusion h
  by_cases hs0 : s < 0
  · exfalso
    simp only [set_one, check_sublayer_ok buf s (by omega), if_pos hs0] at h
    exact apply_bitmask_tf_error h
  simp only [set_one, check_sublayer_ok buf s (by omega), if_neg hs0] at h
  obtain ⟨hi0, hiW, hj0, hjH, hlB, t, b, hpy, hb, hv, hout⟩ :=
    apply_bitmask_ok_inv h
  exact ⟨by omega, by omega, hi0, hiW, hj0, hjH, hlB, t, b, hpy, hb, hv, hout⟩

lemma set_zero_ok_inv {buf out : List Nat} {i j layer s : Int}
    (h : set_zero buf i j layer s = .ok out) :
    0 ≤ s ∧ s < (get_bpp buf : Int) ∧
    0 ≤ i ∧ i < ((get_size buf).1 : Int) ∧
    0 ≤ j ∧ j < ((get_size buf).2 : Int) ∧
    layer < (get_Bpp buf : Int) ∧
    ∃ (t : Nat) (b : Nat),
      pyIndex buf.length ((get_offset buf : Int) +
        j * (get_eff_rowsize buf : Int) + i * (get_Bpp buf : Int) + layer) =
        some t ∧
      buf[t]? = some b ∧ b &&& (255 ^^^ 1 <<< s.toNat) < 256 ∧
      out = buf.set t (b &&& (255 ^^^ 1 <<< s.toNat)) := by
  by_cases hsP : (get_bpp buf : Int) ≤ s
  · exfalso
    simp only [set_zero, check_sublayer_err buf s hsP] at h
    exact Except.noConfusion h
  by_cases hs0 : s < 0
  · exfalso
    simp only [set_zero, check_sublayer_ok buf s (by omega), if_pos hs0] at h
    exact apply_bitmask_tf_error h
  simp only [set_zero, check_sublayer_ok buf s (by omega), if_neg hs0] at h
  obtain ⟨hi0, hiW, hj0, hjH, hlB, t, b, hpy, hb, hv, hout⟩ :=
    apply_bitmask_ok_inv h
  exact ⟨by omega, by omega, hi0, hiW, hj0, hjH, hlB, t, b, hpy, hb, hv, hout⟩

/-- Claim C9 counterexample.  On `bufAlias` the payload (offset 10) overlaps
the header: the first `set_one(0, 0, 0, 2)` mutates byte 10, the low byte of
the payload-offset field itself (10 becomes 14), so the second identical call
addresses and mutates a different byte (14): the composite differs from a
single call, refuting idempotence on arbitrary buffers. -/
theorem set_one_not_idempotent_cex :
    set_one bufAlias 0 0 0 2 = .ok (bufAlias.set 10 14) ∧
    set_one (bufAlias.set 10 14) 0 0 0 2 =
      .ok ((bufAlias.set 10 14).set 14 4) ∧
    (bufAlias.set 10 14).set 14 4 ≠ bufAlias.set 10 14 :=
  ⟨rfl, rfl, by decide⟩

/-- Claim C9 amended.  Whenever the target byte cannot alias the header —
payload_offset ≥ 30 and nonnegative layer put every mutated byte past all
header fields — a second identical successful `set_one` (resp. `set_zero`)
returns exactly the state produced by the first call: both operations are
idempotent. -/
theorem set_bit_idempotent (buf out : List Nat) (i j layer s : Int)
    (hoff : 30 ≤ get_offset buf) (hl0 : 0 ≤ layer) :
    (set_one buf i j layer s = .ok out → set_one out i j layer s = .ok out) ∧
    (set_zero buf i j layer s = .ok out →
      set_zero out i j layer s = .ok out) := by
  constructor
  · intro h
    obtain ⟨hs0, hsP, hi0, hiW, hj0, hjH, hlB, t, b, hpy, hb, hv, hout⟩ :=
      set_one_ok_inv h
    have hjE : 0 ≤ j * (get_eff_rowsize buf : Int) :=
      mul_nonneg hj0 (Int.natCast_nonneg _)
    have hiB : 0 ≤ i * (get_Bpp buf : Int) :=
      mul_nonneg hi0 (Int.natCast_nonneg _)
    have hoffI : (30 : Int) ≤ (get_offset buf : Int) := by exact_mod_cast hoff
    have hK0 : 0 ≤ (get_offset buf : Int) + j * (get_eff_rowsize buf : Int) +
        i * (get_Bpp buf : Int) + layer := by linarith
    have hK30 : (30 : Int) ≤ (get_offset buf : Int) +
        j * (get_eff_rowsize buf : Int) + i * (get_Bpp buf : Int) + layer := by
      linarith
    obtain ⟨hKlen, rfl⟩ := pyIndex_nonneg_inv hK0 hpy
    set K : Int := (get_offset buf : Int) + j * (get_eff_rowsize buf : Int) +
      i * (get_Bpp buf : Int) + layer with hKdef
    have ht30 : 30 ≤ K.toNat := by omega
    have htlen : K.toNat < buf.length := by omega
    subst hout
    obtain ⟨g1, g2, g3, g4, g5⟩ :=
      geometry_stable buf (b ||| 1 <<< s.toNat) K.toNat ht30
    have hor : (b ||| 1 <<< s.toNat) ||| 1 <<< s.toNat =
        b ||| 1 <<< s.toNat := by
      rw [Nat.or_assoc, Nat.or_self]
    have hrun := set_one_run (buf.set K.toNat (b ||| 1 <<< s.toNat)) i j layer
      s K (b ||| 1 <<< s.toNat)
      (by rw [g1, g5, g4])
      hi0 (by rw [g2]; exact hiW) hj0 (by rw [g2]; exact hjH)
      (by rw [g4]; exact hlB) hs0 (by rw [g3]; exact hsP)
      hK0 (by rw [List.length_set]; exact hKlen)
      (List.getElem?_set_eq_of_lt _ htlen)
      (by rw [hor]; exact hv)
    rw [hor, List.set_set] at hrun
    exact hrun
  · intro h
    obtain ⟨hs0, hsP, hi0, hiW, hj0, hjH, hlB, t, b, hpy, hb, hv, hout⟩ :=
      set_zero_ok_inv h
    have hjE : 0 ≤ j * (get_eff_rowsize buf : Int) :=
      mul_nonneg hj0 (Int.natCast_nonneg _)
    have hiB : 0 ≤ i * (get_Bpp buf : Int) :=
      mul_nonneg hi0 (Int.natCast_nonneg _)
    have hoffI : (30 : Int) ≤ (get_offset buf : Int) := by exact_mod_cast hoff
    have hK0 : 0 ≤ (get_offset buf : Int) + j * (get_eff_rowsize buf : Int) +
        i * (get_Bpp buf : Int) + layer := by linarith
    have hK30 : (30 : Int) ≤ (get_offset buf : Int) +
        j * (get_eff_rowsize buf : Int) + i * (get_Bpp buf : Int) + layer := by
      linarith
    obtain ⟨hKlen, rfl⟩ := pyIndex_nonneg_inv hK0 hpy
    set K : Int := (get_offset buf : Int) + j * (get_eff_rowsize buf : Int) +
      i * (get_Bpp buf : Int) + layer with hKdef
    have ht30 : 30 ≤ K.toNat := by omega
    have htlen : K.toNat < buf.length := by omega
    subst hout
    obtain ⟨g1, g2, g3, g4, g5⟩ :=
      geometry_stable buf (b &&& (255 ^^^ 1 <<< s.toNat)) K.toNat ht30
    have hand : (b &&& (255 ^^^ 1 <<< s.toNat)) &&& (255 ^^^ 1 <<< s.toNat) =
        b &&& (255 ^^^ 1 <<< s.toNat) := by
      rw [Nat.and_assoc, Nat.and_self]
    have hrun := set_zero_run
      (buf.set K.toNat (b &&& (255 ^^^ 1 <<< s.toNat))) i j layer s K
      (b &&& (255 ^^^ 1 <<< s.toNat))
      (by rw [g1, g5, g4])
      hi0 (by rw [g2]; exact hiW) hj0 (by rw [g2]; exact hjH)
      (by rw [g4]; exact hlB) hs0 (by rw [g3]; exact hsP)
      hK0 (by rw [List.length_set]; exact hKlen)
      (List.getElem?_set_eq_of_lt _ htlen)
      (by rw [hand]; exact hv)
    rw [hand, List.set_set] at hrun
    exact hrun

/-- Witness for `set_bit_idempotent`: after `set_one(0, 0, 0, 0)` has turned
`buf8` into `buf8.set 30 1`, repeating the call returns the same state. -/
theorem set_bit_idempotent_witness :
    set_one (buf8.set 30 1) 0 0 0 0 = .ok (buf8.set 30 1) :=
  (set_bit_idempotent buf8 (buf8.set 30 1) 0 0 0 0 (by decide) (by decide)).1
    rfl

end BMP
